import Mathlib

/-!
Verification of the pattern synchronization and dry-run orchestration engine
of `secret_protection` (shallow embedding of `src/dist/secret_protection.js`,
the most complete variant of the logic in this repository, which the design
document explicitly designates as its subject; the stale TypeScript copy
`src/secret_protection.ts` predates several of the specified features —
`maxTestTries`, `forceSubmission`, the dry-run-threshold flag, the map-based
pattern directory — and is noted where it diverges).

Remote-console interactions (Playwright page reads/writes) are embedded as
pure functions over explicit environment records that carry the values the
code would observe on the page.  Waits for element visibility are modelled
as succeeding, except where an awaited element provably cannot exist — the
repo-selector dialog's remove-button wait, modelled through the button's
existence — in which case the wait times out and throws; a thrown wait is
the per-pattern failure path treated by the batch layer (claim C7).
-/

/-- Whether `sub` occurs as a contiguous sublist of `l`. -/
def containsSub (sub : List Char) : List Char → Bool
  | [] => sub.isEmpty
  | c :: rest => sub.isPrefixOf (c :: rest) || containsSub sub rest

/-- JavaScript `String.prototype.includes`: substring containment. -/
def jsIncludes (s sub : String) : Bool :=
  containsSub sub.toList s.toList

/-- JavaScript `String.prototype.includes` with a single-character needle
(used for `target.includes('/')` and `repo.includes('/')`). -/
def jsIncludesChar (s : String) (c : Char) : Bool :=
  s.toList.contains c

/-- JavaScript truthiness of a nullable string: `null`/`undefined` and the
empty string are falsy, every other string is truthy. -/
def jsTruthy : Option String → Bool
  | none => false
  | some s => s ≠ ""

/-- Characters treated as whitespace by `parseInt` / regex `\s` (the common
ASCII subset, which is all the repository's texts use). -/
def jsWhitespace (c : Char) : Bool :=
  c = ' ' ∨ c = '\t' ∨ c = '\n' ∨ c = '\r'

/-- JavaScript `String.prototype.trim`: strip whitespace from both ends. -/
def jsTrim (s : String) : String :=
  ⟨((s.toList.dropWhile jsWhitespace).reverse.dropWhile jsWhitespace).reverse⟩

/-- Digit list to the natural number it denotes in base 10. -/
def digitsToNat (ds : List Char) : Nat :=
  ds.foldl (fun a c => a * 10 + (c.toNat - 48)) 0

/-- JavaScript `parseInt(s, 10)`: skip leading whitespace, optional sign,
then a maximal digit run; `none` models `NaN` (no digits found). -/
def jsParseInt (s : String) : Option Int :=
  let cs := s.toList.dropWhile jsWhitespace
  match cs with
  | '-' :: rest =>
      let ds := rest.takeWhile Char.isDigit
      if ds.isEmpty then none else some (-(digitsToNat ds : Int))
  | '+' :: rest =>
      let ds := rest.takeWhile Char.isDigit
      if ds.isEmpty then none else some (digitsToNat ds : Int)
  | _ =>
      let ds := cs.takeWhile Char.isDigit
      if ds.isEmpty then none else some (digitsToNat ds : Int)

/-! ## Data model (§3 of the design document) -/

/-- The `regex` block of a catalog `Pattern`
(`secret_protection.js`, the `Pattern` shape consumed throughout). -/
structure PatternRegex where
  pattern : String
  start : Option String
  «end» : Option String
  additional_match : Option (List String)
  additional_not_match : Option (List String)
deriving Repr, DecidableEq

/-- One result row of a dry run (`DryRunMatch`). -/
structure DryRunMatch where
  matchText : Option String
  repository_location : Option String
  link : Option String
deriving Repr, DecidableEq

/-- Structure `DryRunResult` as produced by `performDryRun`. -/
structure DryRunResult where
  id : String
  name : String
  hits : Int
  results : List DryRunMatch
  completed : Bool
deriving Repr, DecidableEq

/-! ## Argument parsing (`parseArgs`, dist/secret_protection.js lines 75-183)

Only the pieces of `parseArgs` the claims are about are embedded: the scope
auto-detection, the dry-run-threshold default chain and the
`maxTestTries` default.  `process.exit` paths (missing target, invalid
scope) are outside the embedded fragment. -/

/-- Scope determination of `parseArgs`: validate-only mode fixes scope
`repo`; otherwise a target containing `/` forces `repo`; otherwise the
`--scope` argument, defaulting to `org` when absent. -/
def determineScope (validateOnly : Bool) (target : String) (scopeArg : Option String) : String :=
  if validateOnly then "repo"
  else if jsIncludesChar target '/' then "repo"
  else
    match scopeArg with
    | none => "org"
    | some s => s

/-- The effective `dryRunThreshold`: starts at 0, the `DRY_RUN_THRESHOLD`
environment variable overrides it, the `--dry-run-threshold` argument
overrides that, and a `NaN` or negative result is clamped back to 0
(lines 113-120 and 159-161). -/
def effectiveDryRunThreshold (envVar argVal : Option String) : Int :=
  let t : Option Int :=
    match argVal with
    | some s => jsParseInt s
    | none =>
        match envVar with
        | some s => jsParseInt s
        | none => some 0
  match t with
  | none => 0
  | some v => if v < 0 then 0 else v

/-- The effective `maxTestTries`: 25 unless `--max-test-tries` is supplied
(lines 122-125). -/
def effectiveMaxTestTries (argVal : Option String) : Option Int :=
  match argVal with
  | none => some 25
  | some s => jsParseInt s

/-! ## Confirmation gate (`confirmPatternAction`, lines 1548-1563) -/

/-- Function `confirmPatternAction`: if `hits > dryRunThreshold`, prompt
(an `inquirer` confirm whose default answer is `false`; `userAnswer = none`
models the user accepting the default) and return the answer; otherwise
return `true` without prompting.  The first component records whether the
prompt was issued, the second is the returned decision. -/
def confirmPatternAction (hits dryRunThreshold : Int) (userAnswer : Option Bool) :
    Bool × Bool :=
  if dryRunThreshold < hits then
    (true, userAnswer.getD false)
  else
    (false, true)

/-! ## Push-protection toggle at repository scope
(`togglePushProtection`, lines 1443-1455) -/

/-- Whether the toggle's label reports push protection as currently enabled:
the button label reads `Disable` exactly when the feature is on
(`(await label.textContent())?.trim() === 'Disable'`). -/
def pushProtectionLabelEnabled : Option String → Bool
  | none => false
  | some s => jsTrim s = "Disable"

/-- Function `togglePushProtection` decides to click iff the current label state
differs from the desired state (`!isEnabled && enable || isEnabled && !enable`). -/
def togglePushProtectionClicks (labelText : Option String) (enable : Bool) : Bool :=
  let isEnabled := pushProtectionLabelEnabled labelText
  (!isEnabled && enable) || (isEnabled && !enable)

/-- One application of `togglePushProtection` on a page whose toggle label is
`labelText`: returns the label after the step and whether a click was issued.
Remote toggle semantics (modelled): clicking the button switches the feature
to the desired state, so the label becomes `Disable` when enabling and
`Enable` when disabling. -/
def togglePushProtectionStep (labelText : Option String) (enable : Bool) :
    Option String × Bool :=
  if togglePushProtectionClicks labelText enable then
    (some (if enable then "Disable" else "Enable"), true)
  else
    (labelText, false)

/-! ## Theorems -/

/-- Claim C1: the confirmation gate returns `true` automatically (without
prompting) iff `hits ≤ dryRunThreshold`; whenever `hits > dryRunThreshold` —
including `dryRunThreshold = 0`, `hits = 1` — it prompts and returns the
user's answer, the default answer on an accepted prompt being `false`. -/
theorem confirmPatternAction_gate (hits threshold : Int) (ans : Option Bool) :
    ((confirmPatternAction hits threshold ans).1 = false ↔ hits ≤ threshold)
    ∧ ((confirmPatternAction hits threshold ans).1 = false →
        (confirmPatternAction hits threshold ans).2 = true)
    ∧ (threshold < hits →
        (confirmPatternAction hits threshold ans).1 = true
        ∧ (confirmPatternAction hits threshold ans).2 = ans.getD false)
    ∧ ((confirmPatternAction hits threshold (none : Option Bool)).2 = true →
        hits ≤ threshold) := by
  unfold confirmPatternAction
  by_cases h : threshold < hits
  · simp [h, not_le.mpr h]
  · simp [h, not_lt.mp h]

/-- Witness for C1 at the boundary `threshold = 0`, `hits = 1`: the gate
prompts, and with the default answer it refuses. -/
theorem confirmPatternAction_gate_witness :
    (confirmPatternAction 1 0 (none : Option Bool)).1 = true
    ∧ (confirmPatternAction 1 0 (none : Option Bool)).2 = false := by
  have h := (confirmPatternAction_gate 1 0 (none : Option Bool)).2.2.1 (by decide)
  exact ⟨h.1, h.2⟩

/-- Claim C9: at repository scope the push-protection toggle is clicked iff
the current label state differs from the desired state, and applying the same
desired state twice never clicks on the second application. -/
theorem togglePushProtection_idempotent (labelText : Option String) (enable : Bool) :
    (togglePushProtectionClicks labelText enable = true
      ↔ pushProtectionLabelEnabled labelText ≠ enable)
    ∧ (togglePushProtectionStep
        (togglePushProtectionStep labelText enable).1 enable).2 = false := by
  constructor
  · unfold togglePushProtectionClicks
    cases pushProtectionLabelEnabled labelText <;> cases enable <;> simp
  · by_cases hc : togglePushProtectionClicks labelText enable = true
    · simp only [togglePushProtectionStep, hc, if_true]
      cases enable <;> decide
    · have hc' : togglePushProtectionClicks labelText enable = false := by
        revert hc; cases togglePushProtectionClicks labelText enable <;> simp
      simp [togglePushProtectionStep, hc']

/-- Claim C10: scope parsing (outside validate-only mode) sets scope `repo`
unconditionally when the target contains `/`; otherwise the explicit scope
argument is used, defaulting to `org` when absent. -/
theorem parseArgs_scope_detection (target : String) (scopeArg : Option String) :
    (jsIncludesChar target '/' = true → determineScope false target scopeArg = "repo")
    ∧ (jsIncludesChar target '/' = false → scopeArg = none →
        determineScope false target scopeArg = "org")
    ∧ (∀ s, jsIncludesChar target '/' = false → scopeArg = some s →
        determineScope false target scopeArg = s) := by
  refine ⟨fun h => ?_, fun h he => ?_, fun s h he => ?_⟩
  · simp [determineScope, h]
  · simp [determineScope, h, he]
  · simp [determineScope, h, he]

/-- Witness for C10: `owner/repo` with an explicit `--scope enterprise`
still parses as scope `repo`; a bare org name without `--scope` parses
as `org`. -/
theorem parseArgs_scope_detection_witness :
    determineScope false "owner/repo" (some "enterprise") = "repo"
    ∧ determineScope false "myorg" none = "org" :=
  ⟨(parseArgs_scope_detection "owner/repo" (some "enterprise")).1 (by decide),
   (parseArgs_scope_detection "myorg" none).2.1 (by decide) rfl⟩

/-- Claim C2: with neither the environment variable nor the command-line
flag supplied, the effective `dryRunThreshold` is 0, and then every nonzero
hit count prompts for confirmation, which only an explicit `true` answer
passes. -/
theorem dryRunThreshold_default_zero (hits : Int) (ans : Option Bool) (h : 1 ≤ hits) :
    effectiveDryRunThreshold none none = 0
    ∧ (confirmPatternAction hits (effectiveDryRunThreshold none none) ans).1 = true
    ∧ ((confirmPatternAction hits (effectiveDryRunThreshold none none) ans).2 = true
        ↔ ans = some true) := by
  have h0 : effectiveDryRunThreshold none none = 0 := rfl
  have hlt : (0 : Int) < hits := lt_of_lt_of_le zero_lt_one h
  refine ⟨h0, ?_, ?_⟩
  · rw [h0]; simp [confirmPatternAction, hlt]
  · rw [h0]; simp only [confirmPatternAction, if_pos hlt]
    cases ans with
    | none => simp
    | some b => cases b <;> simp

/-- Witness for C2: one dry-run hit under the default threshold prompts,
and the default answer declines. -/
theorem dryRunThreshold_default_zero_witness :
    (confirmPatternAction 1 (effectiveDryRunThreshold none none) (none : Option Bool)).1 = true
    ∧ (confirmPatternAction 1 (effectiveDryRunThreshold none none) (none : Option Bool)).2 = false := by
  have h := dryRunThreshold_default_zero 1 (none : Option Bool) (by decide)
  refine ⟨h.2.1, ?_⟩
  cases hb : (confirmPatternAction 1 (effectiveDryRunThreshold none none) (none : Option Bool)).2
  · rfl
  · exact absurd (h.2.2.mp hb) (by simp)

/-! ## Tester (`testPattern`, dist/secret_protection.js lines 1011-1079)

The result-polling loop reads the status text region once per iteration and
exits when the text includes `No matches` or matches
`/\s*- \d+ match(?:es)?\s*$/`; otherwise it increments `tries` and breaks
out once `tries > config.maxTestTries`. -/

/-- The regex test `/\s*- \d+ match(?:es)?\s*$/` on a status text: after
discarding trailing whitespace the text must end in `- N match` or
`- N matches` for a nonempty digit run `N` (the leading `\s*` of the
pattern is vacuous under search semantics). The check walks the reversed
character list. -/
def isMatchCountText (s : String) : Bool :=
  let r := s.toList.reverse.dropWhile jsWhitespace
  let tail? : Option (List Char) :=
    if (" matches".toList.reverse).isPrefixOf r then some (r.drop 8)
    else if (" match".toList.reverse).isPrefixOf r then some (r.drop 6)
    else none
  match tail? with
  | none => false
  | some t =>
      let ds := t.takeWhile Char.isDigit
      let rest := t.dropWhile Char.isDigit
      !ds.isEmpty && rest.take 2 = [' ', '-']

/-- Loop-exit condition of the tester's polling loop: the status text
includes `No matches` or is a match-count text. -/
def isTerminalStatus (s : String) : Bool :=
  jsIncludes s "No matches" || isMatchCountText s

/-- Spot checks of the embedded status classification: match-count texts
and the no-matches text are terminal; the in-progress indicator and texts
without a digit run are not. -/
theorem isTerminalStatus_spot_checks :
    isMatchCountText "Test pattern - 3 matches" = true
    ∧ isMatchCountText "Test pattern - 1 match" = true
    ∧ isTerminalStatus "Test pattern - No matches" = true
    ∧ isMatchCountText " - Finding matches..." = false
    ∧ isMatchCountText "- matches" = false := by
  refine ⟨by decide, by decide, by decide, by decide, by decide⟩

/-- One polling round plus the bounded continuation: with `fuel` more
iterations allowed, reading statuses `status i, status (i+1), …`, returns
how many polls the loop performs.  `fuel` starts at `maxTestTries + 1`
because `tries` is incremented after each poll and the loop breaks once
`tries > maxTestTries`. -/
def testPollCountAux (status : Nat → String) : Nat → Nat → Nat
  | 0, _ => 0
  | fuel + 1, i =>
      if isTerminalStatus (status i) then 1
      else 1 + testPollCountAux status fuel (i + 1)

/-- Number of status polls `testPattern` performs when the remote status
region shows `status i` at the loop's `i`-th read (0-indexed). -/
def testPollCount (status : Nat → String) (maxTestTries : Nat) : Nat :=
  testPollCountAux status (maxTestTries + 1) 0

/-! ## Remote pattern directory
(`findExistingPatterns`, dist/secret_protection.js lines 837-917) -/

/-- What one page of the custom-pattern listing shows: whether the explicit
`There are no custom patterns…` message is present, the `(name, href)`
texts of the rows, and whether the next-page control is visible and
enabled. -/
structure ListingPage where
  noCustomPatternsMsg : Bool
  rows : List (Option String × Option String)
  nextEnabled : Bool
deriving Repr

/-- The navigation outcome for the listing: either the page load failed, or
it loaded and clicking `next` reveals the given pages in order (the last
supplied page models the state at which the loop stops; walking past the
end yields the map built so far). -/
inductive ListingOutcome where
  | navFail
  | loaded (pages : List ListingPage)

/-- Operation `Map.set` on the name → location association list: last write wins. -/
def mapSet (m : List (String × String)) (k v : String) : List (String × String) :=
  (m.filter fun e => e.1 ≠ k) ++ [(k, v)]

/-- Add one listing row to the index: rows missing a name or an href (or
with an empty one, which is falsy in `if (!name || !url) continue`) are
skipped. -/
def addListingRow (m : List (String × String)) : Option String × Option String →
    List (String × String)
  | (some n, some u) => if n = "" ∨ u = "" then m else mapSet m n u
  | _ => m

/-- The pagination loop of `findExistingPatterns`: an explicit
`no custom patterns` message or an empty row list returns the map built so
far; otherwise the rows are added and the loop continues iff the next
control is visible and enabled. -/
def walkListing : List ListingPage → List (String × String) → List (String × String)
  | [], acc => acc
  | p :: rest, acc =>
      if p.noCustomPatternsMsg then acc
      else if p.rows.length = 0 then acc
      else
        let acc := p.rows.foldl addListingRow acc
        if p.nextEnabled then walkListing rest acc else acc

/-- Function `findExistingPatterns`: `none` on a navigation failure, otherwise the
name → location index accumulated over the paginated listing. -/
def findExistingPatterns : ListingOutcome → Option (List (String × String))
  | .navFail => none
  | .loaded pages => some (walkListing pages [])

/-- Claim C6: the directory lookup distinguishes failure from emptiness —
navigation failure yields `none` (null), while a loaded listing always
yields a map, and a listing whose first page reports no patterns (explicit
message or zero rows) yields the empty map. -/
theorem findExistingPatterns_failure_vs_empty :
    findExistingPatterns .navFail = none
    ∧ (∀ pages, findExistingPatterns (.loaded pages) = some (walkListing pages []))
    ∧ (∀ p rest, (p.noCustomPatternsMsg = true ∨ p.rows = []) →
        findExistingPatterns (.loaded (p :: rest)) = some []) := by
  refine ⟨rfl, fun pages => rfl, fun p rest h => ?_⟩
  rcases h with h | h
  · simp [findExistingPatterns, walkListing, h]
  · simp [findExistingPatterns, walkListing, h]

/-- Witness for C6: a loaded listing whose single page shows the explicit
`no custom patterns` message produces the empty map, not `none`. -/
theorem findExistingPatterns_failure_vs_empty_witness :
    findExistingPatterns (.loaded [⟨true, [], false⟩]) = some [] :=
  findExistingPatterns_failure_vs_empty.2.2 ⟨true, [], false⟩ [] (Or.inl rfl)

/-- The polling loop performs at most `fuel` polls. -/
theorem testPollCountAux_le (status : Nat → String) :
    ∀ fuel i, testPollCountAux status fuel i ≤ fuel := by
  intro fuel
  induction fuel with
  | zero => intro i; simp [testPollCountAux]
  | succ n ih =>
      intro i
      by_cases h : isTerminalStatus (status i) = true
      · simp [testPollCountAux, h]
      · simp only [testPollCountAux, if_neg h]
        have := ih (i + 1)
        omega


/-- Claim C3 (amended): the tester's result-polling loop always terminates,
performing at most `maxTestTries + 1` polls (not `maxTestTries`: `tries` is
checked against the bound only after it is incremented at the end of the
body), whatever the remote status texts; and the default `maxTestTries`
is 25. -/
theorem testPattern_polls_bounded :
    (∀ status maxTestTries, testPollCount status maxTestTries ≤ maxTestTries + 1)
    ∧ effectiveMaxTestTries none = some 25 :=
  ⟨fun status maxTestTries => testPollCountAux_le status (maxTestTries + 1) 0, rfl⟩

/-- Counterexample to claim C3 as stated: with the default
`maxTestTries = 25` and a status region that never stabilizes, the loop
performs 26 polling iterations, exceeding the claimed bound of 25. -/
theorem testPattern_bound_counterexample :
    testPollCount (fun _ => "Still checking") 25 = 26 ∧ 25 < 26 := by
  refine ⟨?_, by decide⟩
  decide

/-! ## Pattern diff & fill engine
(`comparePatterns` and `fillInPattern`, dist/secret_protection.js
lines 640-836)

`fillInPattern` on an existing pattern first diffs the remote form against
the desired pattern, clearing each divergent field as it is found; if
nothing changed (and submission is not forced) it returns `false` before
touching anything else.  The embedding computes the `changed` flag plus the
number of field-clear clicks and remove-rule clicks the diff phase issues. -/

/-- One `div.js-additional-secret-format` row of the remote form: the state
of its must-match radio and the text of its input. -/
structure AdditionalRuleRow where
  isMustMatch : Bool
  value : String
deriving Repr, DecidableEq

/-- The field values `fillInPattern` reads from the remote form of an
existing pattern. `removeButtonCount` is the number of
`js-remove-secret-format-button` elements; `postProcessingCountText` the
text of `div.js-post-processing-expression-count`. -/
structure RemoteFormState where
  secretFormatValue : Option String
  beforeSecretValue : Option String
  afterSecretValue : Option String
  beforeSecretVisible : Bool
  afterSecretVisible : Bool
  postProcessingCountText : Option String
  additionalRules : List AdditionalRuleRow
  removeButtonCount : Nat
deriving Repr, DecidableEq

/-- Function `comparePatterns` (lines 640-645): `false` whenever either side is
null/undefined, otherwise equality of the trimmed strings. -/
def comparePatterns (patternA patternB : Option String) : Bool :=
  match patternA, patternB with
  | some a, some b => jsTrim a = jsTrim b
  | _, _ => false

/-- Fallback `textContent() || '0'`: a null or empty count text falls back to `"0"`
before `parseInt` (line 697). -/
def countTextEff : Option String → String
  | none => "0"
  | some s => if s = "" then "0" else s

/-- A field's contribution to the `changed` flag: the current remote value
must be truthy (`if (secretFormatContent && !comparePatterns(...))`) and
differ from the desired value under `comparePatterns`. -/
def fieldChangeFlag (cur des : Option String) : Bool :=
  jsTruthy cur && !comparePatterns cur des

/-- The element-wise rule comparison loop (lines 722-748): existing row
values are compared against the desired list position by position with
`comparePatterns`; a desired entry that does not exist (`undefined`)
compares unequal.  Returns `true` when no mismatch is found. -/
def checkRulesAgainst : List String → List String → Bool
  | [], _ => true
  | _ :: _, [] => false
  | c :: cs, d :: ds => comparePatterns (some c) (some d) && checkRulesAgainst cs ds

/-- The additional-rules portion of the diff (lines 680-769): if there are
no remove buttons and no desired rules, nothing changed; otherwise the
remote rule count (parsed from the count element) must equal the total
desired count and the must-match / must-not-match groups must compare clean
element-wise, else `changed`. -/
def rulesChangeFlag (rows : List AdditionalRuleRow) (removeButtonCount : Nat)
    (countText : Option String) (am anm : List String) : Bool :=
  if removeButtonCount = 0 && am.length = 0 && anm.length = 0 then false
  else
    let newCount := am.length + anm.length
    if jsParseInt (countTextEff countText) = some (newCount : Int) then
      let rows := rows.take newCount
      !(checkRulesAgainst ((rows.filter fun r => r.isMustMatch).map fun r => r.value) am
        && checkRulesAgainst ((rows.filter fun r => !r.isMustMatch).map fun r => r.value) anm)
    else true

/-- Outcome of the diff phase of `fillInPattern` on an existing pattern:
the accumulated `changed` flag, the number of field-clear operations
issued, and the number of remove-rule clicks issued. -/
structure DiffResult where
  changed : Bool
  clears : Nat
  removeClicks : Nat
deriving Repr, DecidableEq

/-- The diff phase of `fillInPattern` (lines 648-773).  A field is cleared
exactly when its change flag fires (for the anchors, additionally only when
the input is visible — folded into the flag, matching the nesting of the
code).  Remove-rule buttons are all clicked when anything changed or
submission is forced, and only in the branch where rules were inspected. -/
def fillInPatternDiff (form : RemoteFormState) (rx : PatternRegex)
    (forceSubmission : Bool) : DiffResult :=
  let secretChanged := fieldChangeFlag form.secretFormatValue (some rx.pattern)
  let beforeChanged :=
    fieldChangeFlag form.beforeSecretValue rx.start && form.beforeSecretVisible
  let afterChanged :=
    fieldChangeFlag form.afterSecretValue rx.«end» && form.afterSecretVisible
  let clears := (if secretChanged then 1 else 0) + (if beforeChanged then 1 else 0)
    + (if afterChanged then 1 else 0)
  let changed1 := secretChanged || beforeChanged || afterChanged
  let am := rx.additional_match.getD []
  let anm := rx.additional_not_match.getD []
  if form.removeButtonCount = 0 && am.length = 0 && anm.length = 0 then
    { changed := changed1, clears := clears, removeClicks := 0 }
  else
    let rulesChanged :=
      rulesChangeFlag form.additionalRules form.removeButtonCount
        form.postProcessingCountText am anm
    let changed2 := changed1 || rulesChanged
    { changed := changed2, clears := clears,
      removeClicks := if changed2 || forceSubmission then form.removeButtonCount else 0 }

/-- Function `fillInPattern` on an existing pattern (`isExisting = true`): returns
`needsSubmit` — `false` exactly when the diff found no change and
submission is not forced (lines 770-773); otherwise the form is
re-populated and `true` is returned (the fill steps are modelled as
succeeding; an `addAdditionalRule` failure is an error path that also
returns `false` after mutating, reported separately, and is outside the
diff contract). -/
def fillInPattern (form : RemoteFormState) (rx : PatternRegex)
    (forceSubmission : Bool) : Bool :=
  let d := fillInPatternDiff form rx forceSubmission
  d.changed || forceSubmission

/-- Stated from the spec's diff description (§4.2/§8), for comparison with
the code: a field matches after trim-normalization of both sides (an absent
value normalizing like the empty string), and the must-match /
must-not-match rule lists match in length and element-wise trimmed value. -/
def specDiffUnchanged (form : RemoteFormState) (rx : PatternRegex) : Bool :=
  (jsTrim (form.secretFormatValue.getD "") = jsTrim rx.pattern)
  && (jsTrim (form.beforeSecretValue.getD "") = jsTrim (rx.start.getD ""))
  && (jsTrim (form.afterSecretValue.getD "") = jsTrim (rx.«end».getD ""))
  && ((form.additionalRules.filter fun r => r.isMustMatch).map (fun r => jsTrim r.value)
        == (rx.additional_match.getD []).map jsTrim)
  && ((form.additionalRules.filter fun r => !r.isMustMatch).map (fun r => jsTrim r.value)
        == (rx.additional_not_match.getD []).map jsTrim)

/-- The correction of the spec's per-field clause: a field whose current
remote value is null or empty is never treated as differing; otherwise
trim-normalized comparison (against a present desired value) as specified. -/
def amendedFieldUnchanged (cur des : Option String) : Bool :=
  match cur with
  | none => true
  | some c =>
      (c = "") || (match des with
        | none => false
        | some d => jsTrim c = jsTrim d)

/-- The amended diff contract: fields per `amendedFieldUnchanged`, rule
lists per the spec (length and element-wise trimmed value, per kind). -/
def amendedDiffUnchanged (form : RemoteFormState) (rx : PatternRegex) : Bool :=
  amendedFieldUnchanged form.secretFormatValue (some rx.pattern)
  && amendedFieldUnchanged form.beforeSecretValue rx.start
  && amendedFieldUnchanged form.afterSecretValue rx.«end»
  && ((form.additionalRules.filter fun r => r.isMustMatch).map (fun r => jsTrim r.value)
        == (rx.additional_match.getD []).map jsTrim)
  && ((form.additionalRules.filter fun r => !r.isMustMatch).map (fun r => jsTrim r.value)
        == (rx.additional_not_match.getD []).map jsTrim)

/-- A remote form whose start-anchor field is empty while the desired start
anchor is the defaulted boundary expression; all other fields agree. -/
def cexForm : RemoteFormState where
  secretFormatValue := some "secret-[0-9a-f]+"
  beforeSecretValue := some ""
  afterSecretValue := some "\\z|[^0-9A-Za-z]"
  beforeSecretVisible := true
  afterSecretVisible := true
  postProcessingCountText := some "0"
  additionalRules := []
  removeButtonCount := 0

/-- The desired pattern for `cexForm`: identical except that it does supply
a (defaulted) start anchor. -/
def cexRegex : PatternRegex where
  pattern := "secret-[0-9a-f]+"
  start := some "\\A|[^0-9A-Za-z]"
  «end» := some "\\z|[^0-9A-Za-z]"
  additional_match := none
  additional_not_match := none

/-- Counterexample to claim C4 as stated: on `cexForm`/`cexRegex` the diff
reports unchanged (`needsSubmit = false`) although the start-anchor field
does not match after trim-normalization (current value empty, desired value
non-empty), so "unchanged iff every compared field matches" fails. -/
theorem fillInPattern_diff_counterexample :
    fillInPattern cexForm cexRegex false = false
    ∧ specDiffUnchanged cexForm cexRegex = false := by
  constructor
  · decide
  · decide

/-- A field's change flag is off exactly under the amended per-field
contract: empty/null current value, or trimmed equality with a present
desired value. -/
theorem amendedField_iff (cur des : Option String) :
    fieldChangeFlag cur des = false ↔ amendedFieldUnchanged cur des = true := by
  cases cur with
  | none => simp [fieldChangeFlag, jsTruthy, amendedFieldUnchanged]
  | some c =>
      by_cases hc : c = ""
      · subst hc
        simp [fieldChangeFlag, jsTruthy, amendedFieldUnchanged]
      · cases des with
        | none =>
            simp [fieldChangeFlag, jsTruthy, amendedFieldUnchanged, comparePatterns, hc]
        | some d =>
            simp [fieldChangeFlag, jsTruthy, amendedFieldUnchanged, comparePatterns, hc]

/-- The element-wise loop accepts exactly the lists whose values are a
trim-normalized prefix of the desired list. -/
theorem checkRulesAgainst_iff (xs : List String) : ∀ ys : List String,
    checkRulesAgainst xs ys = true ↔
      xs.length ≤ ys.length ∧ xs.map jsTrim = (ys.take xs.length).map jsTrim := by
  induction xs with
  | nil => intro ys; simp [checkRulesAgainst]
  | cons x xs ih =>
      intro ys
      cases ys with
      | nil => simp [checkRulesAgainst]
      | cons y ys =>
          simp only [checkRulesAgainst, Bool.and_eq_true, ih, comparePatterns,
            List.length_cons, List.take_succ_cons, List.map_cons,
            Nat.succ_le_succ_iff, List.cons.injEq, decide_eq_true_eq]
          tauto

/-- Splitting a list by a Boolean predicate preserves total length. -/
theorem length_filter_partition {α : Type} (p : α → Bool) (l : List α) :
    (l.filter p).length + (l.filter fun x => !(p x)).length = l.length := by
  induction l with
  | nil => rfl
  | cons a t ih =>
      cases h : p a <;> simp [List.filter_cons, h] <;> omega

/-- On a coherent form (the count element reports the number of rule rows,
and each row carries a remove button), the rules flag is off exactly when
the per-kind trimmed value lists coincide with the desired lists. -/
theorem rulesChangeFlag_false_iff (rows : List AdditionalRuleRow)
    (removeButtonCount : Nat) (countText : Option String) (am anm : List String)
    (hcount : jsParseInt (countTextEff countText) = some (rows.length : Int))
    (hremove : removeButtonCount = rows.length) :
    rulesChangeFlag rows removeButtonCount countText am anm = false ↔
      ((rows.filter fun r => r.isMustMatch).map (fun r => jsTrim r.value) = am.map jsTrim
       ∧ (rows.filter fun r => !r.isMustMatch).map (fun r => jsTrim r.value)
           = anm.map jsTrim) := by
  subst hremove
  have hpart := length_filter_partition (fun r : AdditionalRuleRow => r.isMustMatch) rows
  unfold rulesChangeFlag
  by_cases hskip : (rows.length = 0 ∧ am.length = 0 ∧ anm.length = 0)
  · obtain ⟨h0, ha, hb⟩ := hskip
    have hrows : rows = [] := List.length_eq_zero.mp h0
    have ham : am = [] := List.length_eq_zero.mp ha
    have hanm : anm = [] := List.length_eq_zero.mp hb
    subst hrows; subst ham; subst hanm
    simp
  · rw [if_neg (by simpa using hskip)]
    by_cases hlen : rows.length = am.length + anm.length
    · rw [if_pos (by rw [hcount, hlen])]
      rw [show am.length + anm.length = rows.length from hlen.symm, List.take_length]
      simp only [Bool.not_eq_false', Bool.and_eq_true, checkRulesAgainst_iff,
        List.length_map, List.map_map, Function.comp]
      constructor
      · rintro ⟨⟨h1len, h1pre⟩, ⟨h2len, h2pre⟩⟩
        have e1 : (rows.filter fun r => r.isMustMatch).length = am.length := by omega
        have e2 : (rows.filter fun r => !r.isMustMatch).length = anm.length := by omega
        rw [e1, List.take_length] at h1pre
        rw [e2, List.take_length] at h2pre
        exact ⟨h1pre, h2pre⟩
      · rintro ⟨h1, h2⟩
        have e1 : (rows.filter fun r => r.isMustMatch).length = am.length := by
          have := congrArg List.length h1
          simpa using this
        have e2 : (rows.filter fun r => !r.isMustMatch).length = anm.length := by
          have := congrArg List.length h2
          simpa using this
        refine ⟨⟨by omega, ?_⟩, ⟨by omega, ?_⟩⟩
        · rw [e1, List.take_length]; exact h1
        · rw [e2, List.take_length]; exact h2
    · rw [if_neg (by rw [hcount]; simpa using fun h => hlen (by exact_mod_cast h))]
      simp only [Bool.true_eq_false, false_iff]
      rintro ⟨h1, h2⟩
      have e1 : (rows.filter fun r => r.isMustMatch).length = am.length := by
        have := congrArg List.length h1
        simpa using this
      have e2 : (rows.filter fun r => !r.isMustMatch).length = anm.length := by
        have := congrArg List.length h2
        simpa using this
      omega

/-- The accumulated `changed` flag of the diff phase is the disjunction of
the three field flags and the rules flag. -/
theorem fillInPatternDiff_changed_eq (form : RemoteFormState) (rx : PatternRegex)
    (forceSubmission : Bool) :
    (fillInPatternDiff form rx forceSubmission).changed =
      (fieldChangeFlag form.secretFormatValue (some rx.pattern)
       || (fieldChangeFlag form.beforeSecretValue rx.start && form.beforeSecretVisible)
       || (fieldChangeFlag form.afterSecretValue rx.«end» && form.afterSecretVisible)
       || rulesChangeFlag form.additionalRules form.removeButtonCount
            form.postProcessingCountText (rx.additional_match.getD [])
            (rx.additional_not_match.getD [])) := by
  unfold fillInPatternDiff
  dsimp only
  split
  · rename_i h
    unfold rulesChangeFlag
    rw [if_pos h]
    simp
  · rfl

/-- Claim C4 (amended): on a coherent remote form (rule count element and
remove buttons agreeing with the rule rows, anchor inputs visible), the
diff reports unchanged (`needsSubmit = false`) iff every compared field
whose current remote value is non-empty matches the desired value after
trim-normalization of both sides — a field whose current value is null or
empty is never treated as differing — and the must-match / must-not-match
rule lists match in length and element-wise trimmed value (any length
mismatch forces changed). -/
theorem fillInPattern_unchanged_iff (form : RemoteFormState) (rx : PatternRegex)
    (hcount : jsParseInt (countTextEff form.postProcessingCountText)
        = some (form.additionalRules.length : Int))
    (hremove : form.removeButtonCount = form.additionalRules.length)
    (hbv : form.beforeSecretVisible = true)
    (hav : form.afterSecretVisible = true) :
    fillInPattern form rx false = false ↔ amendedDiffUnchanged form rx = true := by
  unfold fillInPattern
  simp only [Bool.or_false, fillInPatternDiff_changed_eq, hbv, hav, Bool.and_true,
    Bool.or_eq_false_iff]
  rw [rulesChangeFlag_false_iff form.additionalRules form.removeButtonCount
    form.postProcessingCountText (rx.additional_match.getD [])
    (rx.additional_not_match.getD []) hcount hremove]
  simp only [amendedDiffUnchanged, Bool.and_eq_true, amendedField_iff, beq_iff_eq]
  tauto

/-- Witness for the amended C4: a coherent form that agrees with the
desired pattern on every field and rule is reported unchanged. -/
theorem fillInPattern_unchanged_iff_witness :
    fillInPattern
      ⟨some "token-[a-z]{4}", some "\\A", some "\\z", true, true, some "1",
        [⟨true, "[a-z]"⟩], 1⟩
      ⟨"token-[a-z]{4}", some "\\A", some "\\z", some ["[a-z]"], none⟩
      false = false := by
  exact (fillInPattern_unchanged_iff
    ⟨some "token-[a-z]{4}", some "\\A", some "\\z", true, true, some "1",
      [⟨true, "[a-z]"⟩], 1⟩
    ⟨"token-[a-z]{4}", some "\\A", some "\\z", some ["[a-z]"], none⟩
    (by decide) (by decide) rfl rfl).mpr (by decide)

/-- When the diff found no change, it issued no clear and no remove click. -/
theorem fillInPatternDiff_unchanged_no_ops (form : RemoteFormState) (rx : PatternRegex)
    (h : (fillInPatternDiff form rx false).changed = false) :
    (fillInPatternDiff form rx false).clears = 0
    ∧ (fillInPatternDiff form rx false).removeClicks = 0 := by
  rw [fillInPatternDiff_changed_eq] at h
  simp only [Bool.or_eq_false_iff] at h
  obtain ⟨⟨⟨h1, h2⟩, h3⟩, h4⟩ := h
  constructor
  · unfold fillInPatternDiff
    dsimp only
    split <;> simp [h1, h2, h3]
  · unfold fillInPatternDiff
    dsimp only
    split
    · rfl
    · simp [h1, h2, h3, h4]

/-! ## Per-pattern processing
(`processPattern`, dist/secret_protection.js lines 919-1010)

For an existing pattern, `processPattern` runs `fillInPattern`; when it
returns `true` the pattern is tested, dry-run, gated and published; when it
returns `false` the test/dry-run/confirm/publish pipeline is skipped —
except that a pattern whose page title reports `Unpublished pattern` is
published anyway (lines 970-977).  The embedding records the externally
visible steps: how many pattern-field writes (clears, remove-rule clicks
and fills) are issued, whether the test and the dry run execute, and how
many publish clicks happen. -/

/-- Check `title?.includes('Unpublished pattern')` (line 974). -/
def titleHasUnpublished : Option String → Bool
  | none => false
  | some t => jsIncludes t "Unpublished pattern"

/-- Field writes of the re-population phase of `fillInPattern`
(lines 792-833): the main pattern fill, the anchors when truthy, and one
`addAdditionalRule` per desired rule. -/
def fillSteps (rx : PatternRegex) : Nat :=
  1 + (if jsTruthy rx.start then 1 else 0) + (if jsTruthy rx.«end» then 1 else 0)
    + (rx.additional_match.getD []).length + (rx.additional_not_match.getD []).length

/-- The externally visible steps `processPattern` takes on one pattern. -/
structure StepTrace where
  fieldWrites : Nat
  testStep : Bool
  dryRunStep : Bool
  publishClicks : Nat
deriving Repr, DecidableEq

/-- Function `processPattern` on an existing pattern, with the remote observations
supplied as inputs: the form the diff reads, the page title, whether the
test passes, and the dry-run hit count with the user's answer for the
confirmation gate. -/
def processExistingPatternTrace (form : RemoteFormState) (pageTitle : Option String)
    (rx : PatternRegex) (forceSubmission : Bool) (testOk : Bool)
    (dryRunHits dryRunThreshold : Int) (userAnswer : Option Bool) : StepTrace :=
  let d := fillInPatternDiff form rx forceSubmission
  let needToSubmit := d.changed || forceSubmission
  if needToSubmit then
    let writes := d.clears + d.removeClicks + fillSteps rx
    if testOk then
      { fieldWrites := writes, testStep := true, dryRunStep := true,
        publishClicks :=
          if (confirmPatternAction dryRunHits dryRunThreshold userAnswer).2 then 1 else 0 }
    else
      { fieldWrites := writes, testStep := true, dryRunStep := false, publishClicks := 0 }
  else
    { fieldWrites := d.clears + d.removeClicks, testStep := false, dryRunStep := false,
      publishClicks := if titleHasUnpublished pageTitle then 1 else 0 }

/-- Counterexample to claim C5 as stated: on an existing pattern that the
diff reports unchanged (no forced submission), a page title reading
`Unpublished pattern` still triggers a publish click, so "no … publish step
is issued" fails. -/
theorem processPattern_unchanged_publish_counterexample :
    (fillInPatternDiff ⟨some "foo", some "\\A", some "\\z", true, true, some "0", [], 0⟩
        ⟨"foo", some "\\A", some "\\z", none, none⟩ false).changed = false
    ∧ (processExistingPatternTrace
        ⟨some "foo", some "\\A", some "\\z", true, true, some "0", [], 0⟩
        (some "Unpublished pattern") ⟨"foo", some "\\A", some "\\z", none, none⟩
        false true 0 0 none).publishClicks = 1 :=
  ⟨by decide, by decide⟩

/-- Claim C5 (amended): when the diff detects no change and submission is
not forced, no remote pattern-field mutation is issued and no test or dry
run executes; a publish click happens only in the special case that the
page reports the existing pattern as unpublished.  In particular a second
sync run over an unchanged, already-published catalog issues zero remote
field mutations. -/
theorem processPattern_unchanged_no_mutations (form : RemoteFormState)
    (pageTitle : Option String) (rx : PatternRegex) (testOk : Bool)
    (dryRunHits dryRunThreshold : Int) (userAnswer : Option Bool)
    (h : (fillInPatternDiff form rx false).changed = false) :
    (processExistingPatternTrace form pageTitle rx false testOk dryRunHits
        dryRunThreshold userAnswer).fieldWrites = 0
    ∧ (processExistingPatternTrace form pageTitle rx false testOk dryRunHits
        dryRunThreshold userAnswer).testStep = false
    ∧ (processExistingPatternTrace form pageTitle rx false testOk dryRunHits
        dryRunThreshold userAnswer).dryRunStep = false
    ∧ (processExistingPatternTrace form pageTitle rx false testOk dryRunHits
        dryRunThreshold userAnswer).publishClicks
        = (if titleHasUnpublished pageTitle then 1 else 0) := by
  have hops := fillInPatternDiff_unchanged_no_ops form rx h
  unfold processExistingPatternTrace
  dsimp only
  rw [h]
  simp [hops.1, hops.2]

/-- Witness for the amended C5: an unchanged, already-published pattern
yields zero field writes, no test, no dry run and no publish. -/
theorem processPattern_unchanged_no_mutations_witness :
    (processExistingPatternTrace
        ⟨some "foo", some "\\A", some "\\z", true, true, some "0", [], 0⟩
        (some "Published pattern") ⟨"foo", some "\\A", some "\\z", none, none⟩
        false true 0 0 none).fieldWrites = 0
    ∧ (processExistingPatternTrace
        ⟨some "foo", some "\\A", some "\\z", true, true, some "0", [], 0⟩
        (some "Published pattern") ⟨"foo", some "\\A", some "\\z", none, none⟩
        false true 0 0 none).testStep = false
    ∧ (processExistingPatternTrace
        ⟨some "foo", some "\\A", some "\\z", true, true, some "0", [], 0⟩
        (some "Published pattern") ⟨"foo", some "\\A", some "\\z", none, none⟩
        false true 0 0 none).dryRunStep = false
    ∧ (processExistingPatternTrace
        ⟨some "foo", some "\\A", some "\\z", true, true, some "0", [], 0⟩
        (some "Published pattern") ⟨"foo", some "\\A", some "\\z", none, none⟩
        false true 0 0 none).publishClicks
        = (if titleHasUnpublished (some "Published pattern") then 1 else 0) :=
  processPattern_unchanged_no_mutations
    ⟨some "foo", some "\\A", some "\\z", true, true, some "0", [], 0⟩
    (some "Published pattern") ⟨"foo", some "\\A", some "\\z", none, none⟩
    true 0 0 none (by decide)

/-! ## Batch upload (`uploadPatterns`, dist/secret_protection.js
lines 514-581)

Each pattern file is loaded and validated in its own try/catch; each
pattern of a loadable file is processed in a nested try/catch that records
the failure and continues, except that an error whose message includes
`Target page, context or browser has been closed` (session loss) calls
`exit(1)`.  The embedding drives the loops from outcome data: what
`processPattern` would do for each pattern is an input. -/

/-- Outcome of processing one pattern: success, or a thrown error that is
fatal (session loss) or not. -/
inductive PatternOutcome where
  | ok
  | fail (fatal : Bool)
deriving Repr, DecidableEq

/-- Returns `true` unless the outcome is a fatal failure. -/
def outcomeNonfatal : PatternOutcome → Bool
  | .ok => true
  | .fail fatal => !fatal

/-- One pattern of a catalog file together with its processing outcome. -/
structure BatchPattern where
  name : String
  outcome : PatternOutcome
deriving Repr, DecidableEq

/-- The include/exclude name filters of the run configuration. -/
structure FilterConfig where
  patternsToInclude : Option (List String)
  patternsToExclude : Option (List String)
deriving Repr, DecidableEq

/-- A pattern is processed iff it passes the include list (when present)
and is absent from the exclude list (when present) — lines 537-548. -/
def filterAllows (cfg : FilterConfig) (name : String) : Bool :=
  (match cfg.patternsToInclude with
   | some l => l.contains name
   | none => true)
  && !(match cfg.patternsToExclude with
       | some l => l.contains name
       | none => false)

/-- Batch progress: the `(file, pattern)` pairs attempted, the recorded
failures (`unprocessedPatterns`), and whether `exit(1)` was reached. -/
structure BatchState where
  attempted : List (String × String)
  failures : List (String × String)
  aborted : Bool
deriving Repr, DecidableEq

/-- The inner per-pattern loop of `uploadPatterns` over one file's
patterns: a filtered-out pattern is skipped; otherwise it is attempted; a
failure is recorded and, when fatal, aborts everything. -/
def processFilePatterns (cfg : FilterConfig) (filePath : String) :
    List BatchPattern → BatchState → BatchState
  | [], st => st
  | p :: ps, st =>
      if st.aborted then st
      else if !(filterAllows cfg p.name) then processFilePatterns cfg filePath ps st
      else
        let st1 : BatchState :=
          { st with attempted := st.attempted ++ [(filePath, p.name)] }
        match p.outcome with
        | .ok => processFilePatterns cfg filePath ps st1
        | .fail fatal =>
            let st2 : BatchState :=
              { st1 with failures := st1.failures ++ [(filePath, p.name)] }
            if fatal then { st2 with aborted := true }
            else processFilePatterns cfg filePath ps st2

/-- The outer per-file loop: a file that fails to load or validate
(`none`) only skips that file; otherwise its patterns are processed. -/
def uploadPatternsBatch (cfg : FilterConfig) :
    List (String × Option (List BatchPattern)) → BatchState → BatchState
  | [], st => st
  | (f, pats?) :: rest, st =>
      if st.aborted then st
      else
        match pats? with
        | none => uploadPatternsBatch cfg rest st
        | some ps => uploadPatternsBatch cfg rest (processFilePatterns cfg f ps st)

/-- Function `uploadPatterns` starting from the clean batch state. -/
def uploadPatterns (cfg : FilterConfig)
    (files : List (String × Option (List BatchPattern))) : BatchState :=
  uploadPatternsBatch cfg files ⟨[], [], false⟩

/-- The `(file, name)` pairs that pass the filters, per loadable file, in
processing order. -/
def batchAllowedWrites (cfg : FilterConfig) :
    List (String × Option (List BatchPattern)) → List (String × String)
  | [] => []
  | (_, none) :: rest => batchAllowedWrites cfg rest
  | (f, some ps) :: rest =>
      ((ps.filter fun p => filterAllows cfg p.name).map fun p => (f, p.name))
        ++ batchAllowedWrites cfg rest

/-- With only nonfatal outcomes, one file's loop attempts exactly its
filter-passing patterns, in order, and never aborts. -/
theorem processFilePatterns_eq (cfg : FilterConfig) (f : String) :
    ∀ (ps : List BatchPattern) (st : BatchState), st.aborted = false →
      (∀ p ∈ ps, outcomeNonfatal p.outcome = true) →
      (processFilePatterns cfg f ps st).attempted
          = st.attempted ++ ((ps.filter fun p => filterAllows cfg p.name).map
              fun p => (f, p.name))
      ∧ (processFilePatterns cfg f ps st).aborted = false := by
  intro ps
  induction ps with
  | nil =>
      rintro ⟨att, flr, ab⟩ hab _
      subst hab
      simp [processFilePatterns]
  | cons p ps ih =>
      rintro ⟨att, flr, ab⟩ hab hnf
      subst hab
      have hnfp : outcomeNonfatal p.outcome = true := hnf p (List.mem_cons_self p ps)
      have hnfps : ∀ q ∈ ps, outcomeNonfatal q.outcome = true :=
        fun q hq => hnf q (List.mem_cons_of_mem p hq)
      by_cases hallow : filterAllows cfg p.name = true
      · cases ho : p.outcome with
        | ok =>
            have hrec := ih ⟨att ++ [(f, p.name)], flr, false⟩ rfl hnfps
            simp only [processFilePatterns, ho, hallow]
            simp [hrec.1, hrec.2, List.filter_cons, hallow]
        | fail fatal =>
            have hfatal : fatal = false := by
              rw [ho] at hnfp; simpa [outcomeNonfatal] using hnfp
            subst hfatal
            have hrec := ih ⟨att ++ [(f, p.name)], flr ++ [(f, p.name)], false⟩ rfl hnfps
            simp only [processFilePatterns, ho, hallow]
            simp [hrec.1, hrec.2, List.filter_cons, hallow]
      · have hallow2 : filterAllows cfg p.name = false := by
          revert hallow; cases filterAllows cfg p.name <;> simp
        have hrec := ih ⟨att, flr, false⟩ rfl hnfps
        simp only [processFilePatterns, hallow2]
        simp [hrec.1, hrec.2, List.filter_cons, hallow2]

/-- With only nonfatal outcomes, the whole batch attempts exactly the
filter-passing patterns of every loadable file, in order. -/
theorem uploadPatternsBatch_eq (cfg : FilterConfig) :
    ∀ (files : List (String × Option (List BatchPattern))) (st : BatchState),
      st.aborted = false →
      (∀ fe ∈ files, ∀ ps, fe.2 = some ps →
        ∀ p ∈ ps, outcomeNonfatal p.outcome = true) →
      (uploadPatternsBatch cfg files st).attempted
        = st.attempted ++ batchAllowedWrites cfg files := by
  intro files
  induction files with
  | nil =>
      rintro ⟨att, flr, ab⟩ hab _
      subst hab
      simp [uploadPatternsBatch, batchAllowedWrites]
  | cons fe rest ih =>
      rintro ⟨att, flr, ab⟩ hab hnf
      subst hab
      obtain ⟨f, pats?⟩ := fe
      have hnfrest : ∀ fe ∈ rest, ∀ ps, fe.2 = some ps →
          ∀ p ∈ ps, outcomeNonfatal p.outcome = true :=
        fun fe hfe => hnf fe (List.mem_cons_of_mem _ hfe)
      cases pats? with
      | none =>
          simp only [uploadPatternsBatch, batchAllowedWrites]
          simpa using ih ⟨att, flr, false⟩ rfl hnfrest
      | some ps =>
          have hnfps : ∀ p ∈ ps, outcomeNonfatal p.outcome = true :=
            hnf (f, some ps) (List.mem_cons_self _ _) ps rfl
          have hfile := processFilePatterns_eq cfg f ps ⟨att, flr, false⟩ rfl hnfps
          simp only [uploadPatternsBatch, batchAllowedWrites]
          have hrec := ih (processFilePatterns cfg f ps ⟨att, flr, false⟩) hfile.2 hnfrest
          simp only [Bool.false_eq_true, if_false]
          rw [hrec, hfile.1]
          simp [List.append_assoc]

/-- Membership in the allowed-writes list. -/
theorem mem_batchAllowedWrites (cfg : FilterConfig) (f : String)
    (ps : List BatchPattern) (p : BatchPattern) :
    ∀ files : List (String × Option (List BatchPattern)),
      (f, some ps) ∈ files → p ∈ ps → filterAllows cfg p.name = true →
      (f, p.name) ∈ batchAllowedWrites cfg files := by
  intro files
  induction files with
  | nil => intro h; exact absurd h (List.not_mem_nil _)
  | cons fe rest ih =>
      intro hmem hp hallow
      rcases List.mem_cons.mp hmem with heq | htail
      · subst heq
        simp only [batchAllowedWrites, List.mem_append]
        left
        exact List.mem_map.mpr ⟨p, List.mem_filter.mpr ⟨hp, hallow⟩, rfl⟩
      · obtain ⟨g, qs?⟩ := fe
        cases qs? with
        | none => simpa [batchAllowedWrites] using ih htail hp hallow
        | some qs =>
            simp only [batchAllowedWrites, List.mem_append]
            right
            exact ih htail hp hallow

/-- Claim C7: if every failure in the batch is nonfatal, then a pattern
failing does not prevent any other pattern — later patterns of the same
file and patterns of later files included — from being processed: every
filter-passing pattern of every loadable file is attempted. -/
theorem uploadPatterns_nonfatal_continue (cfg : FilterConfig)
    (files : List (String × Option (List BatchPattern)))
    (hnf : ∀ fe ∈ files, ∀ ps, fe.2 = some ps →
      ∀ p ∈ ps, outcomeNonfatal p.outcome = true)
    (f : String) (ps : List BatchPattern) (hmem : (f, some ps) ∈ files)
    (p : BatchPattern) (hp : p ∈ ps) (hallow : filterAllows cfg p.name = true) :
    (f, p.name) ∈ (uploadPatterns cfg files).attempted := by
  unfold uploadPatterns
  rw [uploadPatternsBatch_eq cfg files ⟨[], [], false⟩ rfl hnf]
  simpa using mem_batchAllowedWrites cfg f ps p files hmem hp hallow

/-- Witness for C7: a batch of two files where the first file's first
pattern fails nonfatally still attempts the same file's second pattern and
the second file's pattern. -/
theorem uploadPatterns_nonfatal_continue_witness :
    ("a.yml", "p2") ∈ (uploadPatterns ⟨none, none⟩
        [("a.yml", some [⟨"p1", .fail false⟩, ⟨"p2", .ok⟩]),
         ("b.yml", some [⟨"p3", .ok⟩])]).attempted
    ∧ ("b.yml", "p3") ∈ (uploadPatterns ⟨none, none⟩
        [("a.yml", some [⟨"p1", .fail false⟩, ⟨"p2", .ok⟩]),
         ("b.yml", some [⟨"p3", .ok⟩])]).attempted := by
  constructor
  · exact uploadPatterns_nonfatal_continue ⟨none, none⟩
      [("a.yml", some [⟨"p1", .fail false⟩, ⟨"p2", .ok⟩]), ("b.yml", some [⟨"p3", .ok⟩])]
      (by decide) "a.yml" [⟨"p1", .fail false⟩, ⟨"p2", .ok⟩] (by decide)
      ⟨"p2", .ok⟩ (by decide) (by decide)
  · exact uploadPatterns_nonfatal_continue ⟨none, none⟩
      [("a.yml", some [⟨"p1", .fail false⟩, ⟨"p2", .ok⟩]), ("b.yml", some [⟨"p3", .ok⟩])]
      (by decide) "b.yml" [⟨"p3", .ok⟩] (by decide)
      ⟨"p3", .ok⟩ (by decide) (by decide)

/-! ## Dry-run orchestrator, repository-selection phase
(`performDryRun`, dist/secret_protection.js lines 1179-1309)

At org/enterprise scope the dry-run trigger opens the repo-selector
dialog.  With `dryRunAllRepos` at org scope the all-repositories radio is
checked; otherwise each configured repository name (reduced to its repo
segment at org scope when it contains `/`) is searched and the first
dropdown option whose trimmed label equals it is clicked.  The code then
awaits visibility of the first `Remove dry run repository` button
(line 1293) before reading the selected-repositories list and returning
the null result when that list is empty (lines 1294-1298); the dialog
renders one remove button per selected repository, so when zero
repositories are selected the awaited button never exists, the wait times
out and throws, and the null-result return is never reached — the pattern
fails with an exception handled by the batch layer instead. -/

/-- Reduction `repo.split('/', 2)[1]` applied at org scope when the name contains
`/` (lines 1264-1266); otherwise the name is used as-is. -/
def repoSegment (scope repo : String) : String :=
  if scope = "org" && jsIncludesChar repo '/' then (repo.splitOn "/").getD 1 ""
  else repo

/-- The repositories that end up selected: those whose segment is matched
case-sensitively by the trimmed label of some dropdown option returned for
its search text (lines 1259-1291).  `options` maps a search text to the
option labels the dialog shows (a `none` label models a row without
text). -/
def selectedDryRunRepos (scope : String) (repoList : List String)
    (options : String → List (Option String)) : List String :=
  repoList.foldl
    (fun acc r =>
      let seg := repoSegment scope r
      if (options seg).any (fun l =>
          match l with
          | some t => jsTrim t = seg
          | none => false)
      then acc ++ [seg] else acc)
    []

/-- Modelled remote dialog semantics: a `Remove dry run repository` button
exists (and so becomes visible) iff at least one repository is selected. -/
def removeButtonVisible (sel : List String) : Bool :=
  sel.length ≠ 0

/-- How the repo-selection phase ends: returning a result without clicking
confirm (`abort`), throwing out of the awaited remove-button wait
(`thrown`, a per-pattern failure — the dry run is likewise not
submitted), or clicking the confirm button to submit the dry run. -/
inductive SelectionOutcome where
  | abort (result : DryRunResult)
  | thrown
  | submitted (selected : List String)
deriving Repr, DecidableEq

/-- The null result used on abort paths (lines 1183-1189). -/
def dryRunNullResult (patternName : String) : DryRunResult :=
  ⟨"", patternName, 0, [], false⟩

/-- The repo-selector-dialog phase of `performDryRun`: all-repos mode (org
scope) submits directly; specific mode selects repositories, awaits the
first remove button (line 1293 — throws when no repository is selected,
since then no such button exists), returns the null result if the
selected list is empty (line 1295), and otherwise clicks confirm
(line 1301). -/
def repoSelectionPhase (patternName scope : String) (dryRunAllRepos : Bool)
    (repoList : List String) (options : String → List (Option String)) :
    SelectionOutcome :=
  if dryRunAllRepos && scope = "org" then .submitted []
  else
    let sel := selectedDryRunRepos scope repoList options
    if removeButtonVisible sel then
      if sel.length = 0 then .abort (dryRunNullResult patternName)
      else .submitted sel
    else .thrown

/-- Counterexample to claim C8 as stated: with zero repositories ending up
selected (org scope, specific mode, a dropdown offering no matching
option), the phase throws out of the remove-button wait — it does not
return the null result. -/
theorem performDryRun_zero_repos_counterexample :
    selectedDryRunRepos "org" ["myorg/repoA"] (fun _ => []) = []
    ∧ repoSelectionPhase "pat" "org" false ["myorg/repoA"] (fun _ => [])
        = SelectionOutcome.thrown
    ∧ SelectionOutcome.thrown ≠ SelectionOutcome.abort (dryRunNullResult "pat") :=
  ⟨by decide, by decide, by decide⟩

/-- Claim C8 (amended): at org/enterprise scope in specific-repositories
mode, when zero repositories end up selected the dry run is never
submitted — but no null result is returned either: the wait for a
selected-repository remove button times out and the phase throws, failing
the pattern; the zero-selected null-result return is unreachable for
every input of the phase. -/
theorem performDryRun_zero_repos_throws (patternName scope : String)
    (dryRunAllRepos : Bool) (repoList : List String)
    (options : String → List (Option String))
    (hscope : scope = "org" ∨ scope = "enterprise")
    (hmode : ¬(dryRunAllRepos = true ∧ scope = "org"))
    (hzero : selectedDryRunRepos scope repoList options = []) :
    repoSelectionPhase patternName scope dryRunAllRepos repoList options
      = SelectionOutcome.thrown
    ∧ (∀ sel, repoSelectionPhase patternName scope dryRunAllRepos repoList options
        ≠ SelectionOutcome.submitted sel)
    ∧ (∀ pn sc ar rl opts r, repoSelectionPhase pn sc ar rl opts
        ≠ SelectionOutcome.abort r) := by
  have habort : ∀ (pn sc : String) (ar : Bool) (rl : List String)
      (opts : String → List (Option String)) (r : DryRunResult),
      repoSelectionPhase pn sc ar rl opts ≠ SelectionOutcome.abort r := by
    intro pn sc ar rl opts r
    unfold repoSelectionPhase
    split
    · exact fun h => SelectionOutcome.noConfusion h
    · dsimp only
      split
      · rename_i hvis
        rw [if_neg (by simpa [removeButtonVisible] using hvis)]
        exact fun h => SelectionOutcome.noConfusion h
      · exact fun h => SelectionOutcome.noConfusion h
  have hthrown : repoSelectionPhase patternName scope dryRunAllRepos repoList options
      = SelectionOutcome.thrown := by
    unfold repoSelectionPhase
    have hcond : (dryRunAllRepos && decide (scope = "org")) = false := by
      cases hd : dryRunAllRepos
      · simp
      · simp only [Bool.true_and, decide_eq_false_iff_not]
        exact fun hsc => hmode ⟨hd, hsc⟩
    rw [hcond]
    simp [hzero, removeButtonVisible]
  refine ⟨hthrown, fun sel h => ?_, habort⟩
  rw [hthrown] at h
  exact SelectionOutcome.noConfusion h

/-- Witness for the amended C8: org scope, specific mode, one configured
repository `myorg/repoA` whose segment `repoA` is not offered by the
dropdown — the phase throws instead of submitting or returning the null
result. -/
theorem performDryRun_zero_repos_throws_witness :
    repoSelectionPhase "pat" "org" false ["myorg/repoA"] (fun _ => [])
      = SelectionOutcome.thrown :=
  (performDryRun_zero_repos_throws "pat" "org" false ["myorg/repoA"] (fun _ => [])
    (Or.inl rfl) (by simp) (by decide)).1
